import Mathlib

/-!
# Verification of the AARI comment-anchoring module

Shallow embedding of `comment-anchors` (the Yjs-based comment anchoring
module) and of the hook-level `resolveCommentPositions` from
`src/lib/hooks.ts`.

Modelling conventions:

* JS numbers that hold document offsets are modelled as `Int` (all offsets
  in the module are integers); the current ProseMirror document size
  (`state.doc.content.size`) is a `Nat`, cast to `Int` where the code
  compares against it.
* The external Yjs / y-prosemirror collaborator (the spec's
  "Mutation-Tracked Document") is modelled as a structure of functions:
  `absToRel` embeds `absolutePositionToRelativePosition` and `relToAbs`
  embeds `relativePositionToAbsolutePosition`, which returns
  `number | null`; `Option Int` models both `null` and a thrown error,
  since inside the module's `try` block both lead to the same observable
  result.
* A stored anchor string is characterised by its two observable parses:
  `asJson` is the result of `JSON.parse` (`none` models a throw) and
  `asPos` is the result of `decodeRelativePosition` (`none` models a
  throw).  The JSON values themselves are modelled by the inductive
  `Json`; JS property access `v.absolute` is modelled by `getField`
  (`none` models `undefined`; property access on `null` throws in JS, but
  every such access in the module sits inside a `try` whose handler
  produces the same result as the `undefined` branch, so `none` is
  observationally faithful there too).
* The string-level position codec (`encodeRelativePosition` /
  `decodeRelativePosition`, base64 over the binary Yjs encoding) is
  modelled separately and concretely in the `Codec` namespace: base64 is
  implemented byte-for-byte, while the binary Yjs codec stays an abstract
  parameter with its library round-trip contract as a hypothesis.
-/

namespace AARI

/-- Model of a parsed JSON value (`JSON.parse` result).  Numeric leaves are
restricted to the integers, which covers every payload the module
produces. -/
inductive Json where
  | null : Json
  | bool (b : Bool) : Json
  | num (n : Int) : Json
  | str (s : String) : Json
  | arr (elems : List Json) : Json
  | obj (fields : List (String × Json)) : Json

/-- JS property access `v.k` on a parsed JSON value: defined only on
objects; on every other value it is `undefined`, modelled as `none`. -/
def Json.getField : Json → String → Option Json
  | .obj fields, k => fields.lookup k
  | _, _ => none

/-- Observable content of a stored anchor string: what `JSON.parse` yields
on it (`none` = throws) and what `decodeRelativePosition` yields on it
(`none` = throws).  `Pos` is the type of decoded Yjs relative
positions. -/
structure Payload (Pos : Type) where
  asJson : Option Json
  asPos : Option Pos

/-- Source interface `CommentAnchor`: the two stored strings. -/
structure CommentAnchor (Pos : Type) where
  fromRelative : Payload Pos
  toRelative : Payload Pos

/-- Source interface `ResolvedAnchor`.  The fields hold JS values: the
CRDT path always stores numbers, but `resolveFallbackAnchor` copies the
parsed `absolute` field verbatim, whatever JSON value it is, so the field
type is `Json`.  `from` is a Lean keyword, hence `from'`. -/
structure ResolvedAnchor where
  from' : Json
  to' : Json
  isValid : Bool

/-- The external Mutation-Tracked Document collaborator, as seen by the
module: a snapshot of one Yjs document plus the ProseMirror editor state.
`absToRel` is `absolutePositionToRelativePosition` on this snapshot,
`relToAbs` is `relativePositionToAbsolutePosition` (`none` = `null` or a
thrown error), and `docSize` is `state.doc.content.size`. -/
structure YDocModel (Pos : Type) where
  absToRel : Int → Pos
  relToAbs : Pos → Option Int
  docSize : Nat

/-- `decodeRelativePosition` at the payload level: the observable result
of decoding the stored string. -/
def decodeRelativePosition {Pos : Type} (p : Payload Pos) : Option Pos :=
  p.asPos

/-- `createCommentAnchor(yXmlFragment, state, from, to)`: converts both
absolute positions to relative positions and encodes them.  `enc` is the
string-level `encodeRelativePosition`, abstracted to the payload it
produces. -/
def createCommentAnchor {Pos : Type} (doc : YDocModel Pos)
    (enc : Pos → Payload Pos) (f t : Int) : CommentAnchor Pos :=
  { fromRelative := enc (doc.absToRel f)
    toRelative := enc (doc.absToRel t) }

/-- The constant `{ from: 0, to: 0, isValid: false }` that every failure
path of the module returns. -/
def invalidResolved : ResolvedAnchor :=
  { from' := .num 0, to' := .num 0, isValid := false }

/-- `resolveCommentAnchor(yXmlFragment, state, anchor)`.  Decoding
failures (the `try`/`catch`), `null` position resolutions and negative
offsets all collapse to `invalidResolved`; otherwise the two offsets are
ordered with `min`/`max` and clamped to `[0, docSize]`. -/
def resolveCommentAnchor {Pos : Type} (doc : YDocModel Pos)
    (a : CommentAnchor Pos) : ResolvedAnchor :=
  match decodeRelativePosition a.fromRelative,
        decodeRelativePosition a.toRelative with
  | some fromRel, some toRel =>
    match doc.relToAbs fromRel, doc.relToAbs toRel with
    | some f, some t =>
      -- source: `if (from === null || to === null || from < 0 || to < 0)`
      if f < 0 ∨ t < 0 then invalidResolved
      else
        let validFrom := min f t
        let validTo := max f t
        { from' := .num (max 0 (min validFrom (doc.docSize : Int)))
          to' := .num (max 0 (min validTo (doc.docSize : Int)))
          isValid := true }
    | _, _ => invalidResolved
  | _, _ => invalidResolved

/-- `createFallbackAnchor(from, to)`: stores the JSON strings tagged with
an `absolute` field.  Feeding such a JSON string to the binary position
decoder is outside every claim; it is modelled as a decode failure
(`asPos := none`). -/
def createFallbackAnchor {Pos : Type} (f t : Int) : CommentAnchor Pos :=
  { fromRelative := { asJson := some (.obj [("absolute", .num f)]), asPos := none }
    toRelative := { asJson := some (.obj [("absolute", .num t)]), asPos := none } }

/-- `resolveFallbackAnchor(anchor)`: parses both payloads; when both have
a defined `absolute` field the stored values are returned verbatim with
`isValid: true`; every other outcome (a parse throw caught by the
`try`/`catch`, or an undefined `absolute` on either side) falls through to
`invalidResolved`. -/
def resolveFallbackAnchor {Pos : Type} (a : CommentAnchor Pos) : ResolvedAnchor :=
  match a.fromRelative.asJson, a.toRelative.asJson with
  | some fromData, some toData =>
    match fromData.getField "absolute", toData.getField "absolute" with
    | some fa, some ta => { from' := fa, to' := ta, isValid := true }
    | _, _ => invalidResolved
  | _, _ => invalidResolved

/-- `isFallbackAnchor(anchor)`: parses only `fromRelative` and tests
whether its `absolute` field is defined; a parse throw is caught and
yields `false`. -/
def isFallbackAnchor {Pos : Type} (a : CommentAnchor Pos) : Bool :=
  match a.fromRelative.asJson with
  | some fromData => (fromData.getField "absolute").isSome
  | none => false

/-- A payload whose JSON parse (if it succeeds at all) has no defined
`absolute` field.  Every base64 string has this property: the base64
alphabet contains no brace, so such a string can never `JSON.parse` to an
object.  Stated as a contract on the abstract string-level encoder. -/
def NoAbsoluteTag {Pos : Type} (p : Payload Pos) : Prop :=
  ∀ v, p.asJson = some v → v.getField "absolute" = none

/-- The `absolute` field extracted from a payload, when the payload parses
to the tagged fallback shape. -/
def taggedValue {Pos : Type} (p : Payload Pos) : Option Json :=
  p.asJson.bind (fun v => v.getField "absolute")

namespace Codec

/-!
String-level model of the position codec:
`encodeRelativePosition(relPos) = Buffer.from(Y.encodeRelativePosition(relPos)).toString('base64')`
and
`decodeRelativePosition(encoded) = Y.decodeRelativePosition(Buffer.from(encoded, 'base64'))`.
Base64 (RFC 4648, with padding, as produced by Node's `Buffer`) is
implemented concretely over byte lists; the binary Yjs codec
(`Y.encodeRelativePosition` / `Y.decodeRelativePosition`) is an external
library and stays an abstract parameter.
-/

/-- The base64 alphabet, as a list so the kernel can evaluate it. -/
def b64Alphabet : List Char :=
  ['A', 'B', 'C', 'D', 'E', 'F', 'G', 'H', 'I', 'J', 'K', 'L', 'M',
   'N', 'O', 'P', 'Q', 'R', 'S', 'T', 'U', 'V', 'W', 'X', 'Y', 'Z',
   'a', 'b', 'c', 'd', 'e', 'f', 'g', 'h', 'i', 'j', 'k', 'l', 'm',
   'n', 'o', 'p', 'q', 'r', 's', 't', 'u', 'v', 'w', 'x', 'y', 'z',
   '0', '1', '2', '3', '4', '5', '6', '7', '8', '9', '+', '/']

/-- Character for a six-bit value. -/
def b64Char (n : Nat) : Char := b64Alphabet.getD n 'A'

/-- Six-bit value of an alphabet character, `none` when it is not in the
alphabet. -/
def b64Index (c : Char) : Option Nat := b64Alphabet.findIdx? (· == c)

/-- Encoding of one full three-byte group into four characters. -/
def encode3 (b0 b1 b2 : Nat) : List Char :=
  let n := b0 * 65536 + b1 * 256 + b2
  [b64Char (n / 262144), b64Char (n / 4096 % 64),
   b64Char (n / 64 % 64), b64Char (n % 64)]

/-- Base64 encoding of a byte list, three bytes per four characters with
`=` padding for a final group of one or two bytes. -/
def b64EncodeList : List Nat → List Char
  | [] => []
  | [b0] => [b64Char (b0 / 4), b64Char (b0 % 4 * 16), '=', '=']
  | [b0, b1] => [b64Char (b0 / 4), b64Char (b0 % 4 * 16 + b1 / 16),
                 b64Char (b1 % 16 * 4), '=']
  | b0 :: b1 :: b2 :: rest => encode3 b0 b1 b2 ++ b64EncodeList rest

/-- Base64 decoding of a character list: inverse of `b64EncodeList` on
canonically padded input, `none` elsewhere. -/
def b64DecodeList : List Char → Option (List Nat)
  | [] => some []
  | c0 :: c1 :: c2 :: c3 :: rest =>
    match b64Index c0, b64Index c1 with
    | some s0, some s1 =>
      if c2 = '=' then
        if c3 = '=' ∧ rest = [] then some [s0 * 4 + s1 / 16] else none
      else
        match b64Index c2 with
        | some s2 =>
          if c3 = '=' then
            if rest = [] then some [s0 * 4 + s1 / 16, s1 % 16 * 16 + s2 / 4]
            else none
          else
            match b64Index c3 with
            | some s3 =>
              match b64DecodeList rest with
              | some bs =>
                some ((s0 * 4 + s1 / 16) :: (s1 % 16 * 16 + s2 / 4) ::
                      (s2 % 4 * 64 + s3) :: bs)
              | none => none
            | none => none
        | none => none
    | _, _ => none
  | _ => none

/-- Base64 encoding at the string level (`Buffer.toString('base64')`). -/
def base64Encode (bs : List Nat) : String := String.mk (b64EncodeList bs)

/-- Base64 decoding at the string level (`Buffer.from(s, 'base64')`);
`none` covers the inputs that are not canonical encoder output (Node's
`Buffer` is lenient there, but no claim depends on those inputs). -/
def base64Decode (s : String) : Option (List Nat) := b64DecodeList s.data

/-- Source `encodeRelativePosition`, with the binary Yjs encoder `yenc`
abstracted: base64 of the binary encoding. -/
def encodeRelativePosition {Pos : Type} (yenc : Pos → List Nat) (p : Pos) :
    String :=
  base64Encode (yenc p)

/-- Source `decodeRelativePosition`, with the binary Yjs decoder `ydec`
abstracted: base64-decode, then binary-decode. -/
def decodeRelativePosition {Pos : Type} (ydec : List Nat → Option Pos)
    (s : String) : Option Pos :=
  (base64Decode s).bind ydec

/-- The alphabet round-trip: looking up the character of a six-bit value
finds that value again. -/
theorem b64Index_b64Char : ∀ s : Nat, s < 64 → b64Index (b64Char s) = some s := by
  decide

/-- No six-bit value encodes to the padding character. -/
theorem b64Char_ne_pad : ∀ s : Nat, s < 64 → b64Char s ≠ '=' := by
  decide

/-- Decoding inverts encoding on every list of genuine bytes. -/
theorem b64DecodeList_b64EncodeList :
    ∀ bs : List Nat, (∀ b ∈ bs, b < 256) →
      b64DecodeList (b64EncodeList bs) = some bs := by
  intro bs
  induction bs using b64EncodeList.induct with
  | case1 =>
    intro _
    rfl
  | case2 b0 =>
    intro hb
    have h0 : b0 < 256 := hb b0 (by simp)
    have e1 : b64Index (b64Char (b0 / 4)) = some (b0 / 4) :=
      b64Index_b64Char _ (by omega)
    have e2 : b64Index (b64Char (b0 % 4 * 16)) = some (b0 % 4 * 16) :=
      b64Index_b64Char _ (by omega)
    simp only [b64EncodeList, b64DecodeList, e1, e2]
    simp
    all_goals omega
  | case3 b0 b1 =>
    intro hb
    have h0 : b0 < 256 := hb b0 (by simp)
    have h1 : b1 < 256 := hb b1 (by simp)
    have e1 : b64Index (b64Char (b0 / 4)) = some (b0 / 4) :=
      b64Index_b64Char _ (by omega)
    have e2 : b64Index (b64Char (b0 % 4 * 16 + b1 / 16)) =
        some (b0 % 4 * 16 + b1 / 16) :=
      b64Index_b64Char _ (by omega)
    have e3 : b64Index (b64Char (b1 % 16 * 4)) = some (b1 % 16 * 4) :=
      b64Index_b64Char _ (by omega)
    have ne3 : b64Char (b1 % 16 * 4) ≠ '=' := b64Char_ne_pad _ (by omega)
    simp only [b64EncodeList, b64DecodeList, e1, e2, e3]
    rw [if_neg ne3]
    simp
    all_goals omega
  | case4 b0 b1 b2 rest ih =>
    intro hb
    have h0 : b0 < 256 := hb b0 (by simp)
    have h1 : b1 < 256 := hb b1 (by simp)
    have h2 : b2 < 256 := hb b2 (by simp)
    have hrest : ∀ b ∈ rest, b < 256 := by
      intro b hbmem
      exact hb b (by simp [hbmem])
    have ihr := ih hrest
    simp only [b64EncodeList, encode3, List.cons_append, List.nil_append]
    set n : Nat := b0 * 65536 + b1 * 256 + b2 with hn
    have e1 : b64Index (b64Char (n / 262144)) = some (n / 262144) :=
      b64Index_b64Char _ (by omega)
    have e2 : b64Index (b64Char (n / 4096 % 64)) = some (n / 4096 % 64) :=
      b64Index_b64Char _ (by omega)
    have e3 : b64Index (b64Char (n / 64 % 64)) = some (n / 64 % 64) :=
      b64Index_b64Char _ (by omega)
    have e4 : b64Index (b64Char (n % 64)) = some (n % 64) :=
      b64Index_b64Char _ (by omega)
    have ne3 : b64Char (n / 64 % 64) ≠ '=' := b64Char_ne_pad _ (by omega)
    have ne4 : b64Char (n % 64) ≠ '=' := b64Char_ne_pad _ (by omega)
    simp only [b64DecodeList, e1, e2, e3, e4]
    rw [if_neg ne3, if_neg ne4]
    simp only [ihr]
    have h0' : n / 262144 * 4 + n / 4096 % 64 / 16 = b0 := by omega
    have h1' : n / 4096 % 64 % 16 * 16 + n / 64 % 64 / 4 = b1 := by omega
    have h2' : n / 64 % 64 % 4 * 64 + n % 64 = b2 := by omega
    simp [h0', h1', h2']

end Codec

namespace Hooks

/-!
Model of the hook-level resolution in `src/lib/hooks.ts`
(`resolveCommentPositions`).  The hook decodes the stored relative
positions against `yjsRef.current` and checks that both absolute
positions belong to the tracked `Y.Text` (`doc.getText('content')`);
on any failure it falls back to the raw stored integer range.
-/

/-- Result of `Y.createAbsolutePositionFromRelativePosition`: the Yjs
type the position belongs to (identified by an id, modelling JS object
identity of `===`) and the index inside it. -/
structure AbsolutePosition where
  typeId : Nat
  index : Int

/-- The live Yjs handle held in `yjsRef.current`: the identity of
`doc.getText('content')` and `Y.createAbsolutePositionFromRelativePosition`
against the current document (`none` models both `null` and a thrown
error inside the hook's `try`). -/
structure HookYjs (Pos : Type) where
  ytextId : Nat
  createAbsolutePosition : Pos → Option AbsolutePosition

/-- The fields of a `Comment` row that the hook reads: the two optional
stored anchor strings and the raw stored integer range. -/
structure Comment (Pos : Type) where
  fromRelative : Option (Payload Pos)
  toRelative : Option (Payload Pos)
  selectionFrom : Int
  selectionTo : Int

/-- `resolveCommentPositions(comment)`: uses the CRDT path only when the
Yjs handle and both stored anchors are present, both decode, both resolve
to absolute positions, and both positions belong to the tracked text;
every other path returns the raw stored range. -/
def resolveCommentPositions {Pos : Type} (yjs : Option (HookYjs Pos))
    (c : Comment Pos) : Int × Int :=
  match yjs, c.fromRelative, c.toRelative with
  | some y, some fr, some tr =>
    match decodeRelativePosition fr, decodeRelativePosition tr with
    | some fromRelPos, some toRelPos =>
      match y.createAbsolutePosition fromRelPos,
            y.createAbsolutePosition toRelPos with
      | some fromAbsPos, some toAbsPos =>
        if fromAbsPos.typeId = y.ytextId ∧ toAbsPos.typeId = y.ytextId then
          (fromAbsPos.index, toAbsPos.index)
        else (c.selectionFrom, c.selectionTo)
      | _, _ => (c.selectionFrom, c.selectionTo)
    | _, _ => (c.selectionFrom, c.selectionTo)
  | _, _, _ => (c.selectionFrom, c.selectionTo)

end Hooks

/-! ## Helper lemmas and test fixtures -/

/-- The spec's "simple in-memory fake document": positions are the offsets
themselves and every position resolves, on a document of size 10. -/
def idDoc : YDocModel Int :=
  { absToRel := fun o => o, relToAbs := fun p => some p, docSize := 10 }

/-- A fixture string-level encoder for witnesses: the payload decodes back
to the position and has no JSON parse. -/
def idEnc : Int → Payload Int :=
  fun p => { asJson := none, asPos := some p }

/-- Every result of `resolveCommentAnchor` is either the invalid constant
or a valid, ordered, clamped numeric range. -/
theorem resolveCommentAnchor_shape {Pos : Type} (doc : YDocModel Pos)
    (a : CommentAnchor Pos) :
    resolveCommentAnchor doc a = invalidResolved ∨
      ∃ f t : Int, 0 ≤ f ∧ f ≤ t ∧ t ≤ (doc.docSize : Int) ∧
        resolveCommentAnchor doc a =
          { from' := .num f, to' := .num t, isValid := true } := by
  rcases hf : decodeRelativePosition a.fromRelative with _ | fp
  · left
    simp [resolveCommentAnchor, hf]
  rcases ht : decodeRelativePosition a.toRelative with _ | tp
  · left
    simp [resolveCommentAnchor, hf, ht]
  rcases hrf : doc.relToAbs fp with _ | f
  · left
    simp [resolveCommentAnchor, hf, ht, hrf]
  rcases hrt : doc.relToAbs tp with _ | t
  · left
    simp [resolveCommentAnchor, hf, ht, hrf, hrt]
  by_cases hneg : f < 0 ∨ t < 0
  · left
    simp [resolveCommentAnchor, hf, ht, hrf, hrt, hneg]
  · right
    refine ⟨max 0 (min (min f t) (doc.docSize : Int)),
            max 0 (min (max f t) (doc.docSize : Int)), ?_, ?_, ?_, ?_⟩
    · omega
    · omega
    · omega
    · simp [resolveCommentAnchor, hf, ht, hrf, hrt, hneg]

/-- Every result of `resolveFallbackAnchor` is either the invalid constant
or the verbatim pair of stored `absolute` fields. -/
theorem resolveFallbackAnchor_shape {Pos : Type} (a : CommentAnchor Pos) :
    resolveFallbackAnchor a = invalidResolved ∨
      ∃ fa ta : Json, taggedValue a.fromRelative = some fa ∧
        taggedValue a.toRelative = some ta ∧
        resolveFallbackAnchor a = { from' := fa, to' := ta, isValid := true } := by
  rcases hf : a.fromRelative.asJson with _ | fv
  · left
    simp [resolveFallbackAnchor, hf]
  rcases ht : a.toRelative.asJson with _ | tv
  · left
    simp [resolveFallbackAnchor, hf, ht]
  rcases hfa : fv.getField "absolute" with _ | fa
  · left
    simp [resolveFallbackAnchor, hf, ht, hfa]
  rcases hta : tv.getField "absolute" with _ | ta
  · left
    simp [resolveFallbackAnchor, hf, ht, hfa, hta]
  · right
    exact ⟨fa, ta, by simp [taggedValue, hf, hfa], by simp [taggedValue, ht, hta],
           by simp [resolveFallbackAnchor, hf, ht, hfa, hta]⟩

/-! ## The claims -/

/-- C1: for every document and every pair of offsets with
`0 ≤ from ≤ to ≤ length(D)`, building an anchor with `createCommentAnchor`
and immediately resolving it with `resolveCommentAnchor` on the unmodified
document returns exactly `{from, to, valid: true}`.  The two hypotheses on
`enc` and on `doc` are the external collaborator contracts: the codec
round-trips, and on the unmodified document resolving a freshly built
relative position returns the offset it was built from. -/
theorem c1_build_resolve_roundtrip {Pos : Type} (doc : YDocModel Pos)
    (enc : Pos → Payload Pos)
    (henc : ∀ p, (enc p).asPos = some p)
    (f t : Int) (hf : 0 ≤ f) (hft : f ≤ t) (ht : t ≤ (doc.docSize : Int))
    (hres : ∀ o : Int, 0 ≤ o → o ≤ (doc.docSize : Int) →
      doc.relToAbs (doc.absToRel o) = some o) :
    resolveCommentAnchor doc (createCommentAnchor doc enc f t) =
      { from' := .num f, to' := .num t, isValid := true } := by
  have hfr := hres f hf (le_trans hft ht)
  have htr := hres t (le_trans hf hft) ht
  simp only [resolveCommentAnchor, createCommentAnchor, decodeRelativePosition,
    henc, hfr, htr]
  rw [if_neg (by omega)]
  have h1 : max 0 (min (min f t) (doc.docSize : Int)) = f := by omega
  have h2 : max 0 (min (max f t) (doc.docSize : Int)) = t := by omega
  simp [h1, h2]

/-- Witness for C1 at `doc = idDoc`, `from = 2`, `to = 5`. -/
theorem c1_build_resolve_roundtrip_witness :
    resolveCommentAnchor idDoc (createCommentAnchor idDoc idEnc 2 5) =
      { from' := .num 2, to' := .num 5, isValid := true } :=
  c1_build_resolve_roundtrip idDoc idEnc (fun _ => rfl) 2 5 (by decide) (by decide)
    (by decide) (fun _ _ _ => rfl)

/-- C2, counterexample: the claim says every `valid: true` range returned
by `resolveFallbackAnchor` satisfies `0 ≤ from ≤ to ≤ length`, sharing the
ordering-and-clamping semantics of the CRDT path; but
`resolveFallbackAnchor (createFallbackAnchor 5 2)` returns
`{from: 5, to: 2, valid: true}` with `from > to` — the fallback path
neither orders nor clamps. -/
theorem c2_bounds_counterexample :
    resolveFallbackAnchor (@createFallbackAnchor Int 5 2) =
      { from' := .num 5, to' := .num 2, isValid := true } ∧
    ¬((5 : Int) ≤ 2) :=
  ⟨rfl, by decide⟩

/-- C2, amended: every `valid: true` range returned by
`resolveCommentAnchor` satisfies `0 ≤ from ≤ to ≤ length(D)`, but
`resolveFallbackAnchor` returns the stored `absolute` payloads verbatim
with `valid: true`, applying no ordering and no clamping, so its results
satisfy those bounds only when the stored payloads already do. -/
theorem c2_amended_bounds_semantics :
    (∀ (Pos : Type) (doc : YDocModel Pos) (a : CommentAnchor Pos),
      (resolveCommentAnchor doc a).isValid = true →
      ∃ f t : Int, (resolveCommentAnchor doc a).from' = .num f ∧
        (resolveCommentAnchor doc a).to' = .num t ∧
        0 ≤ f ∧ f ≤ t ∧ t ≤ (doc.docSize : Int)) ∧
    (∀ (Pos : Type) (a : CommentAnchor Pos) (fa ta : Json),
      taggedValue a.fromRelative = some fa →
      taggedValue a.toRelative = some ta →
      resolveFallbackAnchor a = { from' := fa, to' := ta, isValid := true }) := by
  constructor
  · intro Pos doc a hvalid
    rcases resolveCommentAnchor_shape doc a with hinv | ⟨f, t, h0, hft, hts, heq⟩
    · rw [hinv] at hvalid
      simp [invalidResolved] at hvalid
    · exact ⟨f, t, by rw [heq], by rw [heq], h0, hft, hts⟩
  · intro Pos a fa ta hfa hta
    rcases resolveFallbackAnchor_shape a with hinv | ⟨fa', ta', hfa', hta', heq⟩
    · rcases a with ⟨fr, tr⟩
      simp only [taggedValue, Option.bind_eq_some] at hfa hta
      obtain ⟨fv, hfv, hfget⟩ := hfa
      obtain ⟨tv, htv, htget⟩ := hta
      simp [resolveFallbackAnchor, hfv, htv, hfget, htget, invalidResolved] at hinv
    · rw [hfa] at hfa'
      rw [hta] at hta'
      cases hfa'
      cases hta'
      exact heq

/-- Witness for C2's amended claim: the CRDT half at a concretely valid
resolution and the fallback half at `createFallbackAnchor 5 2`. -/
theorem c2_amended_bounds_semantics_witness :
    (∃ f t : Int,
      (resolveCommentAnchor idDoc (createCommentAnchor idDoc idEnc 2 5)).from' = .num f ∧
      (resolveCommentAnchor idDoc (createCommentAnchor idDoc idEnc 2 5)).to' = .num t ∧
      0 ≤ f ∧ f ≤ t ∧ t ≤ ((idDoc.docSize : Int))) ∧
    resolveFallbackAnchor (@createFallbackAnchor Int 5 2) =
      { from' := .num 5, to' := .num 2, isValid := true } :=
  ⟨c2_amended_bounds_semantics.1 Int idDoc (createCommentAnchor idDoc idEnc 2 5) rfl,
   c2_amended_bounds_semantics.2 Int (createFallbackAnchor 5 2) (.num 5) (.num 2) rfl rfl⟩

/-- C3: if either stored position decodes but resolves to `null` or to a
negative offset against the current document, `resolveCommentAnchor`
returns exactly `{from: 0, to: 0, valid: false}`; no partial range is
produced from the side that did resolve. -/
theorem c3_all_or_nothing {Pos : Type} (doc : YDocModel Pos)
    (a : CommentAnchor Pos) (fp tp : Pos)
    (hfp : decodeRelativePosition a.fromRelative = some fp)
    (htp : decodeRelativePosition a.toRelative = some tp)
    (hfail : doc.relToAbs fp = none ∨ doc.relToAbs tp = none ∨
      (∃ f, doc.relToAbs fp = some f ∧ f < 0) ∨
      (∃ t, doc.relToAbs tp = some t ∧ t < 0)) :
    resolveCommentAnchor doc a =
      { from' := .num 0, to' := .num 0, isValid := false } := by
  rcases hfail with hn | hn | ⟨f, hsf, hneg⟩ | ⟨t, hst, hneg⟩
  · simp [resolveCommentAnchor, hfp, htp, hn, invalidResolved]
  · rcases hrf : doc.relToAbs fp with _ | f
    · simp [resolveCommentAnchor, hfp, htp, hrf, invalidResolved]
    · simp [resolveCommentAnchor, hfp, htp, hrf, hn, invalidResolved]
  · rcases hrt : doc.relToAbs tp with _ | t
    · simp [resolveCommentAnchor, hfp, htp, hsf, hrt, invalidResolved]
    · have : f < 0 ∨ t < 0 := Or.inl hneg
      simp [resolveCommentAnchor, hfp, htp, hsf, hrt, this, invalidResolved]
  · rcases hrf : doc.relToAbs fp with _ | f
    · simp [resolveCommentAnchor, hfp, htp, hrf, invalidResolved]
    · have : f < 0 ∨ t < 0 := Or.inr hneg
      simp [resolveCommentAnchor, hfp, htp, hrf, hst, this, invalidResolved]

/-- Witness for C3: a document on which the `to` position resolves to
`null` while the `from` position resolves fine. -/
theorem c3_all_or_nothing_witness :
    resolveCommentAnchor
      { absToRel := fun o => o, relToAbs := fun p => if p = 9 then none else some p,
        docSize := 10 }
      { fromRelative := idEnc 3, toRelative := idEnc 9 } =
      { from' := .num 0, to' := .num 0, isValid := false } :=
  c3_all_or_nothing _ _ 3 9 rfl rfl (Or.inr (Or.inl (by decide)))

/-- C4: whenever `resolveCommentAnchor` returns `valid: true`, the range
is ordered (`from ≤ to`, even if the two positions resolved in inverted
order), `from` is never negative, and `to` never exceeds the current
document size. -/
theorem c4_valid_invariants {Pos : Type} (doc : YDocModel Pos)
    (a : CommentAnchor Pos)
    (hvalid : (resolveCommentAnchor doc a).isValid = true) :
    ∃ f t : Int, (resolveCommentAnchor doc a).from' = .num f ∧
      (resolveCommentAnchor doc a).to' = .num t ∧
      0 ≤ f ∧ f ≤ t ∧ t ≤ (doc.docSize : Int) := by
  rcases resolveCommentAnchor_shape doc a with hinv | ⟨f, t, h0, hft, hts, heq⟩
  · rw [hinv] at hvalid
    simp [invalidResolved] at hvalid
  · exact ⟨f, t, by rw [heq], by rw [heq], h0, hft, hts⟩

/-- Witness for C4: a document on which the two positions resolve in
inverted order (9 before 3) and past the end (9 on a document of size 6),
exercising both the swap and the clamp. -/
theorem c4_valid_invariants_witness :
    ∃ f t : Int,
      (resolveCommentAnchor
        { absToRel := fun o => o, relToAbs := fun p => some p, docSize := 6 }
        { fromRelative := idEnc 9, toRelative := idEnc 3 }).from' = .num f ∧
      (resolveCommentAnchor
        { absToRel := fun o => o, relToAbs := fun p => some p, docSize := 6 }
        { fromRelative := idEnc 9, toRelative := idEnc 3 }).to' = .num t ∧
      0 ≤ f ∧ f ≤ t ∧ t ≤ ((6 : Nat) : Int) :=
  c4_valid_invariants _ _ rfl

/-- C5: both resolution operations are total and convert every internal
failure into `{from: 0, to: 0, valid: false}`: a stored payload that fails
to decode as a position makes `resolveCommentAnchor` return the invalid
constant, a stored payload that fails to parse as JSON makes
`resolveFallbackAnchor` return it, and in general each function either
returns exactly that constant or a `valid: true` range — nothing else
escapes the module boundary. -/
theorem c5_totality :
    (∀ (Pos : Type) (doc : YDocModel Pos) (a : CommentAnchor Pos),
      decodeRelativePosition a.fromRelative = none ∨
        decodeRelativePosition a.toRelative = none →
      resolveCommentAnchor doc a =
        { from' := .num 0, to' := .num 0, isValid := false }) ∧
    (∀ (Pos : Type) (a : CommentAnchor Pos),
      a.fromRelative.asJson = none ∨ a.toRelative.asJson = none →
      resolveFallbackAnchor a =
        { from' := .num 0, to' := .num 0, isValid := false }) ∧
    (∀ (Pos : Type) (doc : YDocModel Pos) (a : CommentAnchor Pos),
      resolveCommentAnchor doc a =
          { from' := .num 0, to' := .num 0, isValid := false } ∨
        (resolveCommentAnchor doc a).isValid = true) ∧
    (∀ (Pos : Type) (a : CommentAnchor Pos),
      resolveFallbackAnchor a =
          { from' := .num 0, to' := .num 0, isValid := false } ∨
        (resolveFallbackAnchor a).isValid = true) := by
  refine ⟨?_, ?_, ?_, ?_⟩
  · intro Pos doc a h
    rcases h with h | h
    · simp [resolveCommentAnchor, h, invalidResolved]
    · rcases hf : decodeRelativePosition a.fromRelative with _ | fp
      · simp [resolveCommentAnchor, hf, invalidResolved]
      · simp [resolveCommentAnchor, hf, h, invalidResolved]
  · intro Pos a h
    rcases h with h | h
    · simp [resolveFallbackAnchor, h, invalidResolved]
    · rcases hf : a.fromRelative.asJson with _ | fv
      · simp [resolveFallbackAnchor, hf, invalidResolved]
      · simp [resolveFallbackAnchor, hf, h, invalidResolved]
  · intro Pos doc a
    rcases resolveCommentAnchor_shape doc a with hinv | ⟨f, t, _, _, _, heq⟩
    · exact Or.inl (by rw [hinv]; rfl)
    · exact Or.inr (by rw [heq])
  · intro Pos a
    rcases resolveFallbackAnchor_shape a with hinv | ⟨fa, ta, _, _, heq⟩
    · exact Or.inl (by rw [hinv]; rfl)
    · exact Or.inr (by rw [heq])

/-- Witness for C5: a malformed stored payload (decodes to nothing, parses
to nothing) makes both resolvers return the invalid constant. -/
theorem c5_totality_witness :
    resolveCommentAnchor idDoc
      { fromRelative := { asJson := none, asPos := none }, toRelative := idEnc 3 } =
      { from' := .num 0, to' := .num 0, isValid := false } ∧
    @resolveFallbackAnchor Int
      { fromRelative := { asJson := none, asPos := none }, toRelative := idEnc 3 } =
      { from' := .num 0, to' := .num 0, isValid := false } :=
  ⟨c5_totality.1 Int idDoc _ (Or.inl rfl),
   c5_totality.2.1 Int _ (Or.inl rfl)⟩

/-- C6: an anchor produced by `createFallbackAnchor` is identified by
`isFallbackAnchor` as a fallback anchor, and an anchor produced by
`createCommentAnchor` (base64-encoded CRDT payloads) is not.  The
hypothesis on `enc` is the base64 grammar fact: a base64 string never
`JSON.parse`s to an object, so its `absolute` field is never defined. -/
theorem c6_mode_discrimination :
    (∀ (Pos : Type) (f t : Int),
      isFallbackAnchor (@createFallbackAnchor Pos f t) = true) ∧
    (∀ (Pos : Type) (doc : YDocModel Pos) (enc : Pos → Payload Pos),
      (∀ p, NoAbsoluteTag (enc p)) →
      ∀ f t : Int, isFallbackAnchor (createCommentAnchor doc enc f t) = false) := by
  constructor
  · intro Pos f t
    rfl
  · intro Pos doc enc henc f t
    show isFallbackAnchor _ = false
    rcases hj : (enc (doc.absToRel f)).asJson with _ | v
    · simp [isFallbackAnchor, createCommentAnchor, hj]
    · have := henc (doc.absToRel f) v hj
      simp [isFallbackAnchor, createCommentAnchor, hj, this]

/-- Witness for C6 at `from = 5`, `to = 12` and the fixture encoder. -/
theorem c6_mode_discrimination_witness :
    isFallbackAnchor (@createFallbackAnchor Int 5 12) = true ∧
    isFallbackAnchor (createCommentAnchor idDoc idEnc 5 12) = false :=
  ⟨c6_mode_discrimination.1 Int 5 12,
   c6_mode_discrimination.2 Int idDoc idEnc (fun _ _ h => by cases h) 5 12⟩

/-- C7: `resolveFallbackAnchor ∘ createFallbackAnchor` returns the stored
integers verbatim with `valid: true`, and on any anchor whose payloads do
not both parse to the tagged shape with a defined `absolute` field it
returns `{from: 0, to: 0, valid: false}`. -/
theorem c7_fallback_roundtrip :
    (∀ (Pos : Type) (f t : Int), 0 ≤ f → 0 ≤ t →
      resolveFallbackAnchor (@createFallbackAnchor Pos f t) =
        { from' := .num f, to' := .num t, isValid := true }) ∧
    (∀ (Pos : Type) (a : CommentAnchor Pos),
      ¬((taggedValue a.fromRelative).isSome = true ∧
        (taggedValue a.toRelative).isSome = true) →
      resolveFallbackAnchor a =
        { from' := .num 0, to' := .num 0, isValid := false }) := by
  constructor
  · intro Pos f t _ _
    rfl
  · intro Pos a h
    rcases resolveFallbackAnchor_shape a with hinv | ⟨fa, ta, hfa, hta, _⟩
    · rw [hinv]
      rfl
    · exact absurd ⟨by simp [hfa], by simp [hta]⟩ h

/-- Witness for C7: the spec's own example `resolveFallback(buildFallback(5, 12))`,
and an anchor whose payloads are not tagged with `absolute`. -/
theorem c7_fallback_roundtrip_witness :
    resolveFallbackAnchor (@createFallbackAnchor Int 5 12) =
      { from' := .num 5, to' := .num 12, isValid := true } ∧
    @resolveFallbackAnchor Int
      { fromRelative := idEnc 3, toRelative := idEnc 4 } =
      { from' := .num 0, to' := .num 0, isValid := false } :=
  ⟨c7_fallback_roundtrip.1 Int 5 12 (by decide) (by decide),
   c7_fallback_roundtrip.2 Int _ (by simp [taggedValue, idEnc])⟩

/-- C8: the string codec round-trips: decoding the encoding of a relative
position yields a position that resolves identically against any document
state.  The two hypotheses are the external Yjs binary codec contract
(its bytes are bytes, and its own decode inverts its encode); the base64
layer added by the module is proved concretely
(`b64DecodeList_b64EncodeList`). -/
theorem c8_codec_roundtrip {Pos : Type} (yenc : Pos → List Nat)
    (ydec : List Nat → Option Pos) (p : Pos)
    (hbytes : ∀ b ∈ yenc p, b < 256)
    (hy : ydec (yenc p) = some p) :
    ∃ q, Codec.decodeRelativePosition ydec (Codec.encodeRelativePosition yenc p) =
        some q ∧
      ∀ doc : YDocModel Pos, doc.relToAbs q = doc.relToAbs p := by
  refine ⟨p, ?_, fun doc => rfl⟩
  show (Codec.base64Decode (Codec.base64Encode (yenc p))).bind ydec = some p
  show (Codec.b64DecodeList (String.mk (Codec.b64EncodeList (yenc p))).data).bind ydec = some p
  rw [show (String.mk (Codec.b64EncodeList (yenc p))).data =
        Codec.b64EncodeList (yenc p) from rfl]
  rw [Codec.b64DecodeList_b64EncodeList _ hbytes]
  simpa using hy

/-- Witness for C8 with a one-byte binary codec at `p = 7`. -/
theorem c8_codec_roundtrip_witness :
    ∃ q, Codec.decodeRelativePosition
        (fun bs => match bs with | [b] => some b | _ => none)
        (Codec.encodeRelativePosition (fun n => [n % 256]) 7) = some q ∧
      ∀ doc : YDocModel Nat, doc.relToAbs q = doc.relToAbs 7 :=
  c8_codec_roundtrip (fun n => [n % 256])
    (fun bs => match bs with | [b] => some b | _ => none) 7
    (by decide) rfl

/-- C10: `isFallbackAnchor` inspects only the `fromRelative` payload: two
anchors with equal `fromRelative` are classified identically whatever
their `toRelative`, and any anchor whose `fromRelative` parses to the
tagged shape with a defined `absolute` field — even one whose
`toRelative` is CRDT-encoded — is classified as a fallback anchor. -/
theorem c10_isFallback_ignores_to :
    (∀ (Pos : Type) (a b : CommentAnchor Pos),
      a.fromRelative = b.fromRelative →
      isFallbackAnchor a = isFallbackAnchor b) ∧
    (∀ (Pos : Type) (a : CommentAnchor Pos),
      (taggedValue a.fromRelative).isSome = true →
      isFallbackAnchor a = true) := by
  constructor
  · intro Pos a b h
    unfold isFallbackAnchor
    rw [h]
  · intro Pos a h
    simp only [taggedValue, Option.isSome_iff_exists, Option.bind_eq_some] at h
    obtain ⟨fa, fv, hfv, hget⟩ := h
    simp [isFallbackAnchor, hfv, hget]

/-- Witness for C10: a mixed anchor whose `fromRelative` is the tagged
fallback payload for offset 5 and whose `toRelative` is a CRDT payload is
classified as a fallback anchor, and it is classified identically to the
pure fallback anchor sharing its `fromRelative`. -/
theorem c10_isFallback_ignores_to_witness :
    @isFallbackAnchor Int
      { fromRelative := (@createFallbackAnchor Int 5 12).fromRelative,
        toRelative := idEnc 3 } = true ∧
    @isFallbackAnchor Int
      { fromRelative := (@createFallbackAnchor Int 5 12).fromRelative,
        toRelative := idEnc 3 } =
      isFallbackAnchor (@createFallbackAnchor Int 5 12) :=
  ⟨c10_isFallback_ignores_to.2 Int _ rfl,
   c10_isFallback_ignores_to.1 Int _ _ rfl⟩

/-- C9: whenever a comment's `fromRelative` or `toRelative` is
null/absent, or decoding either stored position fails, or resolving
either decoded position against the current document fails, or either
resolved position does not belong to the tracked text, the hook-level
`resolveCommentPositions` returns the raw stored integer range
`{from: selectionFrom, to: selectionTo}` — never a zeroed/invalid
range. -/
theorem c9_hook_fallback_to_stored :
    ∀ (Pos : Type) (yjs : Option (Hooks.HookYjs Pos)) (c : Hooks.Comment Pos),
      (c.fromRelative = none ∨ c.toRelative = none ∨
        (∃ fr tr, c.fromRelative = some fr ∧ c.toRelative = some tr ∧
          (decodeRelativePosition fr = none ∨ decodeRelativePosition tr = none)) ∨
        (∃ y fr tr fp tp, yjs = some y ∧
          c.fromRelative = some fr ∧ c.toRelative = some tr ∧
          decodeRelativePosition fr = some fp ∧
          decodeRelativePosition tr = some tp ∧
          (y.createAbsolutePosition fp = none ∨
            y.createAbsolutePosition tp = none)) ∨
        (∃ y fr tr fp tp fa ta, yjs = some y ∧
          c.fromRelative = some fr ∧ c.toRelative = some tr ∧
          decodeRelativePosition fr = some fp ∧
          decodeRelativePosition tr = some tp ∧
          y.createAbsolutePosition fp = some fa ∧
          y.createAbsolutePosition tp = some ta ∧
          (fa.typeId ≠ y.ytextId ∨ ta.typeId ≠ y.ytextId))) →
      Hooks.resolveCommentPositions yjs c = (c.selectionFrom, c.selectionTo) := by
  intro Pos yjs c h
  rcases h with h | h | ⟨fr, tr, hfr, htr, hdec⟩ |
    ⟨y, fr, tr, fp, tp, hy, hfr, htr, hfp, htp, habs⟩ |
    ⟨y, fr, tr, fp, tp, fa, ta, hy, hfr, htr, hfp, htp, hfa, hta, hty⟩
  · rcases yjs with _ | y
    · rfl
    · simp [Hooks.resolveCommentPositions, h]
  · rcases yjs with _ | y
    · rfl
    · rcases hf : c.fromRelative with _ | fr
      · simp [Hooks.resolveCommentPositions, hf]
      · simp [Hooks.resolveCommentPositions, hf, h]
  · rcases yjs with _ | y
    · rfl
    · rcases hdec with hd | hd
      · simp [Hooks.resolveCommentPositions, hfr, htr, hd]
      · rcases hdf : decodeRelativePosition fr with _ | fp
        · simp [Hooks.resolveCommentPositions, hfr, htr, hdf]
        · simp [Hooks.resolveCommentPositions, hfr, htr, hdf, hd]
  · subst hy
    rcases habs with ha | ha
    · simp [Hooks.resolveCommentPositions, hfr, htr, hfp, htp, ha]
    · rcases haf : y.createAbsolutePosition fp with _ | fa
      · simp [Hooks.resolveCommentPositions, hfr, htr, hfp, htp, haf]
      · simp [Hooks.resolveCommentPositions, hfr, htr, hfp, htp, haf, ha]
  · subst hy
    have hcond : ¬(fa.typeId = y.ytextId ∧ ta.typeId = y.ytextId) := by
      rcases hty with hne | hne
      · exact fun hc => hne hc.1
      · exact fun hc => hne hc.2
    simp [Hooks.resolveCommentPositions, hfr, htr, hfp, htp, hfa, hta, hcond]

/-- Witness for C9: a comment with no stored anchors resolves to its raw
stored range even with a live Yjs handle present. -/
theorem c9_hook_fallback_to_stored_witness :
    @Hooks.resolveCommentPositions Int
      (some { ytextId := 1, createAbsolutePosition := fun p => some ⟨1, p⟩ })
      { fromRelative := none, toRelative := none,
        selectionFrom := 4, selectionTo := 9 } = (4, 9) :=
  c9_hook_fallback_to_stored Int
    (some { ytextId := 1, createAbsolutePosition := fun p => some ⟨1, p⟩ })
    { fromRelative := none, toRelative := none,
      selectionFrom := 4, selectionTo := 9 }
    (Or.inl rfl)

end AARI
